import Mathlib

/-!
Shallow embedding of the ingestion pipeline of the pg_vector_test
repository (src/core/data_processor.py, src/core/embedding.py,
src/core/text_processing.py, src/db/models/schema.py).

Pure Python functions are translated to Lean functions; the SQLAlchemy
session is modelled as explicit state (committed rows vs. rows staged in
the active transaction); embedding-provider calls are modelled as
functions supplied as parameters; exceptions become `Except` values or
tagged outcomes.
-/

namespace PgVectorTest

/-- A SQLAlchemy session over rows of type `α`: `committed` holds the rows
made durable by `Session.commit()`, `staged` holds the uncommitted work of
the active transaction (rows added via `session.add` / `add_all` /
`flush` since the last commit). -/
structure Sess (α : Type) where
  committed : List α
  staged : List α
  deriving Repr, DecidableEq

/-- `session.commit()`: all staged work becomes durable. -/
def commitS (s : Sess α) : Sess α :=
  { committed := s.committed ++ s.staged, staged := [] }

/-- `session.rollback()`: the active transaction is rolled back, i.e. all
uncommitted staged work is discarded; committed rows are untouched. -/
def rollbackS (s : Sess α) : Sess α :=
  { committed := s.committed, staged := [] }

/-- Outcome of the body of `DataProcessor.process_row` for one input row,
abstracting the row's content: either the row's steps all succeed and
produce the given chunk records, or an exception is raised after having
staged `stagedSoFar` (chunks / provenance rows staged before the failing
step). -/
inductive RowOutcome (α : Type) where
  | ok (chunks : List α)
  | fail (stagedSoFar : List α)
  deriving Repr, DecidableEq

/-- `DataProcessor.process_row` (src/core/data_processor.py lines
125-189): on success the row's chunk records are staged in the session and
the chunk count is returned; on any exception the handler logs, calls
`session.rollback()` (discarding the whole active transaction's staged
work) and returns 0. -/
def process_row (s : Sess α) (r : RowOutcome α) : Sess α × Nat :=
  match r with
  | .ok chunks => ({ s with staged := s.staged ++ chunks }, chunks.length)
  | .fail stagedSoFar => (rollbackS { s with staged := s.staged ++ stagedSoFar }, 0)

/-- Result of an ingestion run: final session, `processed` and
`total_chunks` counters, and the trace of `session.commit()` calls
(recorded as the value of `processed` at each commit). -/
structure RunResult (α : Type) where
  sess : Sess α
  processed : Nat
  total_chunks : Nat
  commits : List Nat
  deriving Repr, DecidableEq

/-- The row loop of `DataProcessor.insert_dataframe` (src/core/
data_processor.py lines 221-242): each row goes through `process_row`,
`processed` is incremented unconditionally, `total_chunks` accumulates the
returned chunk count, and `session.commit()` runs whenever
`processed % commit_interval == 0`; after the row sequence is exhausted a
final `session.commit()` always runs. -/
def ingestLoop (commit_interval : Nat) :
    List (RowOutcome α) → Sess α → Nat → Nat → List Nat → RunResult α
  | [], s, processed, total_chunks, commits =>
      { sess := commitS s, processed := processed,
        total_chunks := total_chunks, commits := commits ++ [processed] }
  | row :: rest, s, processed, total_chunks, commits =>
      let pr := process_row s row
      let processed2 := processed + 1
      let total2 := total_chunks + pr.2
      if processed2 % commit_interval == 0 then
        ingestLoop commit_interval rest (commitS pr.1) processed2 total2
          (commits ++ [processed2])
      else
        ingestLoop commit_interval rest pr.1 processed2 total2 commits

/-- `DataProcessor.insert_dataframe`'s processing of the row list once the
embedding-availability check passed: starts from a fresh session and zero
counters. -/
def runRows (rows : List (RowOutcome α)) (commit_interval : Nat) : RunResult α :=
  ingestLoop commit_interval rows ⟨[], []⟩ 0 0 []

/-! ## EmbeddingManager (src/core/embedding.py) -/

/-- Error modes of `EmbeddingManager` methods.  `attributeError` models the
Python `AttributeError` raised when `self.client` is read although the
attribute was never assigned (`self.client: OpenAI` in `__init__` is a bare
annotation, not an assignment).  `notInitialized` models
`RuntimeError("OpenAI client not initialized")`. -/
inductive EmbErr where
  | attributeError
  | notInitialized
  deriving Repr, DecidableEq

/-- State of the `client` attribute of an `EmbeddingManager` instance:
`none` = the attribute was never assigned (reading it raises
`AttributeError`); `some none` = the attribute holds a falsy value such as
`None`; `some (some ())` = the attribute holds a live `OpenAI` handle. -/
abbrev ClientState := Option (Option Unit)

/-- `EmbeddingManager.is_available` (src/core/embedding.py lines 138-140):
`return self.client is not None`.  Reading `self.client` when the attribute
was never assigned raises `AttributeError`. -/
def is_available (client : ClientState) : Except EmbErr Bool :=
  match client with
  | none => .error .attributeError
  | some c => .ok c.isSome

/-- `EmbeddingManager.initialize` (src/core/embedding.py lines 31-44),
parametrised by whether `OPENAI_API_KEY` is present in the environment and
whether the `OpenAI(...)` constructor succeeds.  In both failure paths the
method returns `False` without ever assigning `self.client`. -/
def initManager (api_key_present ctor_ok : Bool) (client : ClientState) :
    ClientState × Bool :=
  if !api_key_present then (client, false)
  else if ctor_ok then (some (some ()), true)
  else (client, false)

/-- `EmbeddingManager.create_embedding` (src/core/embedding.py lines
52-75), with the provider response modelled by the function `provider`
(the OpenAI API returns one vector per input text).  The body first reads
`self.client` in `if not self.client: raise RuntimeError(...)`. -/
def create_embedding (client : ClientState) (provider : String → β)
    (text : String) : Except EmbErr β :=
  match client with
  | none => .error .attributeError
  | some none => .error .notInitialized
  | some (some _) => .ok (provider text)

/-- `EmbeddingManager._create_embeddings_batch_internal` (src/core/
embedding.py lines 120-136): one provider call returning one embedding per
input text, in input order (`[data.embedding for data in response.data]`). -/
def _create_embeddings_batch_internal (f : α → β) (texts : List α) : List β :=
  texts.map f

/-- The sub-batch slicing of `EmbeddingManager.create_embeddings_batch`
(src/core/embedding.py lines 103-109): `texts[i : i + max_batch_size]` for
`i in range(0, len(texts), max_batch_size)`. -/
def splitBatches (max_batch_size : Nat) (texts : List α) : List (List α) :=
  if h : texts.length ≤ max_batch_size ∨ max_batch_size = 0 then [texts]
  else
    texts.take max_batch_size ::
      splitBatches max_batch_size (texts.drop max_batch_size)
termination_by texts.length
decreasing_by
  simp only [not_or] at h
  simp only [List.length_drop]
  omega

/-- `EmbeddingManager.create_embeddings_batch` (src/core/embedding.py lines
83-112): after the `self.client` guard, a list of more than
`max_batch_size` texts is split into consecutive sub-batches each sent to
`_create_embeddings_batch_internal`, and the results are concatenated with
`all_embeddings.extend(...)`; otherwise a single internal call is made. -/
def create_embeddings_batch (client : ClientState) (f : String → β)
    (max_batch_size : Nat) (texts : List String) : Except EmbErr (List β) :=
  match client with
  | none => .error .attributeError
  | some none => .error .notInitialized
  | some (some _) =>
    if texts.length > max_batch_size then
      .ok (((splitBatches max_batch_size texts).map
        (_create_embeddings_batch_internal f)).flatten)
    else
      .ok (_create_embeddings_batch_internal f texts)

/-! ## The tenacity retry decorators (src/core/embedding.py lines 46-51,
77-82, 114-119) -/

/-- The tenacity `@retry(retry=retry_if_exception_type((RateLimitError,
Exception)), stop=stop_after_attempt(fuel), ...)` loop around an action
that threads a state `σ` (used below to count provider calls): each
attempt runs the action; a success returns its value; after `fuel` failed
attempts the loop gives up (`tenacity.RetryError`), modelled as `none`. -/
def retryS (act : σ → Except ε α × σ) : Nat → σ → Option α × σ
  | 0, s => (none, s)
  | fuel + 1, s =>
    match act s with
    | (.ok a, s2) => (some a, s2)
    | (.error _, s2) => retryS act fuel s2

/-- A provider that persistently raises a rate-limit signal; the state
counts how many attempts have reached the provider. -/
def rate_limited_call (calls : Nat) : Except Unit Unit × Nat :=
  (.error (), calls + 1)

/-- Provider attempts made by `create_embedding` against a persistently
rate-limited provider: one retry loop of 5 attempts. -/
def create_embedding_attempts : Nat :=
  (retryS rate_limited_call 5 0).2

/-- One attempt of the outer retry loop of `create_embeddings_batch`
(≤ 100 texts): its body calls `_create_embeddings_batch_internal`, which
carries its own `@retry` decorator, so each outer attempt runs a full
inner 5-attempt retry loop; the inner loop's final failure
(`tenacity.RetryError`, an `Exception`) is matched by the outer decorator's
`retry_if_exception_type((RateLimitError, Exception))`. -/
def batch_attempt (calls : Nat) : Except Unit Unit × Nat :=
  match retryS rate_limited_call 5 calls with
  | (some a, c2) => (.ok a, c2)
  | (none, c2) => (.error (), c2)

/-- Provider attempts made by `create_embeddings_batch` against a
persistently rate-limited provider: the outer 5-attempt loop around the
inner 5-attempt loop. -/
def create_embeddings_batch_attempts : Nat :=
  (retryS batch_attempt 5 0).2

/-- tenacity `wait_exponential(multiplier, min, max)`: the delay before the
retry following failed attempt `attempt_number` is
`max(min, min(multiplier * 2 ** attempt_number, max))`. -/
def wait_exponential (multiplier min_ max_ attempt_number : Nat) : Nat :=
  max min_ (min (multiplier * 2 ^ attempt_number) max_)

/-- The backoff delays of one `@retry(... wait=wait_exponential(
multiplier=1, min=4, max=60))` loop of 5 attempts: delays after the 1st
through 4th failed attempts. -/
def backoff_delays : List Nat :=
  (List.range 4).map (fun k => wait_exponential 1 4 60 (k + 1))

/-! ## ProvenanceStore (src/core/data_processor.py lines 49-99) -/

/-- A table with an autoincrement surrogate id and rows of payload `β`
carrying a unique text key. -/
structure KTable (β : Type) where
  rows : List (Nat × β)
  nextId : Nat
  deriving Repr, DecidableEq

/-- `session.execute(select(T).where(T.key == k)).scalar_one_or_none()`:
first row whose key matches, if any. -/
def lookupKey (key : β → String) (t : KTable β) (k : String) : Option Nat :=
  (t.rows.find? (fun r => key r.2 == k)).map (fun r => r.1)

/-- Number of rows of `t` whose unique key equals `k`. -/
def keyCount (key : β → String) (t : KTable β) (k : String) : Nat :=
  (t.rows.filter (fun r => key r.2 == k)).length

/-- The shared lookup / insert-flush / on-IntegrityError-rollback-and-
re-lookup body of `DataProcessor.insert_copyright_holder` (lines 49-72)
and `DataProcessor.insert_source` (lines 74-99).  `interleave` is the
table mutation committed by a concurrent writer between our lookup and our
flush (`id` when the call runs alone).  The flush raises `IntegrityError`
exactly when the unique key is already present in the table it runs
against; the handler rolls the staged insert back and re-runs the lookup
(`scalar_one`). -/
def resolveUnique (key : β → String) (mkRow : String → β)
    (interleave : KTable β → KTable β) (t : KTable β) (k : String) :
    Nat × KTable β :=
  match lookupKey key t k with
  | some i => (i, t)
  | none =>
    let t2 := interleave t
    match lookupKey key t2 k with
    | some j => (j, t2)
    | none =>
      (t2.nextId, ⟨t2.rows ++ [(t2.nextId, mkRow k)], t2.nextId + 1⟩)

/-- `DataProcessor.insert_copyright_holder` (src/core/data_processor.py
lines 49-72): rows are holder names, keyed by `name`. -/
def insert_copyright_holder (interleave : KTable String → KTable String)
    (t : KTable String) (name : String) : Nat × KTable String :=
  resolveUnique (fun n => n) (fun n => n) interleave t name

/-- `DataProcessor.insert_source` (src/core/data_processor.py lines
74-99): rows are `(copyright_holder_id, url)` pairs, keyed by `url`. -/
def insert_source (interleave : KTable (Nat × String) → KTable (Nat × String))
    (copyright_holder_id : Nat) (t : KTable (Nat × String)) (url : String) :
    Nat × KTable (Nat × String) :=
  resolveUnique (fun r => r.2) (fun u => (copyright_holder_id, u))
    interleave t url

/-! ## Chunk construction of `DataProcessor.process_row`
(src/core/data_processor.py lines 136-172) -/

/-- The `chunk_info` sub-document of a chunk's metadata.  The question
chunk carries neither `total_answer_chunks` nor `original_length`, hence
the `Option` fields. -/
structure ChunkInfo where
  chunk_method : String
  chunk_index : Nat
  is_question : Bool
  total_answer_chunks : Option Nat
  original_length : Option Nat
  deriving Repr, DecidableEq

/-- The metadata document stored with each chunk. -/
structure ChunkMeta where
  type : String
  question : String
  answer : String
  answer_chunk : Option String
  chunk_info : ChunkInfo
  deriving Repr, DecidableEq

/-- One element of the `chunks_data` list built by `process_row`. -/
structure ChunkData where
  text : String
  metadata : ChunkMeta
  deriving Repr, DecidableEq

/-- `question_metadata` (src/core/data_processor.py lines 139-148). -/
def question_metadata (question answer : String) : ChunkMeta :=
  { type := "question", question := question, answer := answer,
    answer_chunk := none,
    chunk_info :=
      { chunk_method := "single", chunk_index := 0, is_question := true,
        total_answer_chunks := none, original_length := none } }

/-- `answer_metadata` for the answer chunk at 0-based position `i` of `k`
answer chunks (src/core/data_processor.py lines 158-170); the stored
`chunk_index` is `i + 1` because the question occupies index 0. -/
def answer_metadata (chunk_strategy question answer chunk_text : String)
    (i k original_length : Nat) : ChunkMeta :=
  { type := "answer", question := question, answer := answer,
    answer_chunk := some chunk_text,
    chunk_info :=
      { chunk_method := chunk_strategy, chunk_index := i + 1,
        is_question := false, total_answer_chunks := some k,
        original_length := some original_length } }

/-- The `chunks_data` list built by `process_row` (src/core/
data_processor.py lines 136-172): the question as a single chunk followed
by the answer chunks produced by `TextProcessor.chunk_text` (abstracted as
`chunker`), enumerated from 0 with stored index `i + 1`. -/
def buildChunksData (chunk_strategy : String) (chunker : String → List String)
    (question answer : String) : List ChunkData :=
  let answer_chunks := chunker answer
  { text := question, metadata := question_metadata question answer } ::
    answer_chunks.enum.map (fun p =>
      { text := p.2,
        metadata := answer_metadata chunk_strategy question answer p.2 p.1
          answer_chunks.length answer.length })

/-! ## `DataProcessor.insert_chunks_with_embeddings`
(src/core/data_processor.py lines 101-123) -/

/-- A row of the `chunks` table (src/db/models/schema.py lines 65-92; the
`embeding` column name keeps the schema's typo), with the embedding vector
type abstracted as `V`. -/
structure ChunkRecord (V : Type) where
  source_id : Nat
  content : String
  embeding : V
  metadata_ : ChunkMeta
  deriving Repr, DecidableEq

/-- `DataProcessor.insert_chunks_with_embeddings` (src/core/
data_processor.py lines 101-123) after the embedding batch call returned
`embeddings`: the staged chunk records are built by
`zip(chunks_data, embeddings)` — there is no check that the two lists have
equal length, and the function has no failure path. -/
def insert_chunks_with_embeddings (source_id : Nat)
    (chunks_data : List ChunkData) (embeddings : List V) :
    List (ChunkRecord V) :=
  if chunks_data.isEmpty then []
  else
    (chunks_data.zip embeddings).map (fun p =>
      { source_id := source_id, content := p.1.text, embeding := p.2,
        metadata_ := p.1.metadata })

/-! ## `DataProcessor.insert_dataframe` (src/core/data_processor.py lines
191-253) -/

/-- `DataProcessor.insert_dataframe`: applies the optional row `limit`
(`data = data[:limit]`), checks `self.embedding_manager.is_available()`
(which reads `self.client`), returns the zero summary when that check
returns `False`, and otherwise runs the row loop and returns
`{"processed_rows": processed, "total_chunks": total_chunks}`. -/
def insert_dataframe (client : ClientState) (rows : List (RowOutcome α))
    (limit : Option Nat) (commit_interval : Nat) :
    Except EmbErr (Nat × Nat) :=
  let data := match limit with
    | some l => rows.take l
    | none => rows
  match is_available client with
  | .error e => .error e
  | .ok false => .ok (0, 0)
  | .ok true =>
    let r := runRows data commit_interval
    .ok (r.processed, r.total_chunks)

/-- The `processed` counts at which the row loop commits, as a function of
the commit interval, the count already processed, and the number of
remaining rows; mirrors the control flow of `ingestLoop` commit events. -/
def commitPlan (ci : Nat) : Nat → Nat → List Nat
  | p, 0 => [p]
  | p, n + 1 =>
    if (p + 1) % ci == 0 then (p + 1) :: commitPlan ci (p + 1) n
    else commitPlan ci (p + 1) n

/-- A 123-row input of which exactly the last row permanently fails (its
`process_row` raises and it contributes 0 chunks). -/
def failingRun : List (RowOutcome Nat) :=
  List.replicate 122 (RowOutcome.ok [0]) ++ [RowOutcome.fail []]

/-- A concurrent writer that commits a conflicting holder row
`(99, "Acme")` between our lookup and our flush. -/
def acmeInterleave (t : KTable String) : KTable String :=
  ⟨t.rows ++ [(99, "Acme")], 100⟩

/-- A concurrent writer that commits a conflicting source row
`(7, (3, "u1"))` between our lookup and our flush. -/
def srcInterleave (t : KTable (Nat × String)) : KTable (Nat × String) :=
  ⟨t.rows ++ [(7, (3, "u1"))], 8⟩

/-! ## Helper lemmas -/

theorem ingestLoop_processed {α : Type} (ci : Nat) :
    ∀ (rows : List (RowOutcome α)) (s : Sess α) (p c : Nat) (tr : List Nat),
      (ingestLoop ci rows s p c tr).processed = p + rows.length := by
  intro rows
  induction rows with
  | nil => intro s p c tr; simp [ingestLoop]
  | cons r rest ih =>
    intro s p c tr
    simp only [ingestLoop]
    split
    · rw [ih]; simp [List.length_cons]; omega
    · rw [ih]; simp [List.length_cons]; omega

theorem ingestLoop_commits {α : Type} (ci : Nat) :
    ∀ (rows : List (RowOutcome α)) (s : Sess α) (p c : Nat) (tr : List Nat),
      (ingestLoop ci rows s p c tr).commits = tr ++ commitPlan ci p rows.length := by
  intro rows
  induction rows with
  | nil => intro s p c tr; simp [ingestLoop, commitPlan]
  | cons r rest ih =>
    intro s p c tr
    simp only [ingestLoop, List.length_cons, commitPlan]
    split
    · rw [ih]; simp [List.append_assoc]
    · rw [ih]

/-! ## Claims -/

/-- C1 (counterexample): on a run of 123 input rows with exactly 1
permanently failed row, the claim predicts `processedRows = 123 - 1 = 122`,
but `insert_dataframe` returns `processedRows = 123`: the `processed`
counter is incremented unconditionally for every row, failed or not. -/
theorem C1_counterexample_processed_counts_failed_row :
    insert_dataframe (some (some ())) failingRun none 50 = Except.ok (123, 122)
    ∧ (123 : Nat) ≠ 123 - 1 := by
  exact ⟨by rfl, by decide⟩

/-- C1 (amended): `processedRows` in the summary equals the total number
of input rows iterated, counting permanently failed rows as well; only the
`totalChunks` component reflects failures (a failed row contributes 0). -/
theorem C1_processed_rows_counts_every_row {α : Type} :
    ∀ (rows : List (RowOutcome α)) (ci : Nat),
      insert_dataframe (some (some ())) rows none ci
        = Except.ok ((runRows rows ci).processed, (runRows rows ci).total_chunks)
      ∧ (runRows rows ci).processed = rows.length := by
  intro rows ci
  refine ⟨rfl, ?_⟩
  unfold runRows
  rw [ingestLoop_processed]
  simp

/-- C2 (counterexample): a session holding chunk `7` staged by an earlier
successful row; processing a failing row afterwards leaves `staged = []`,
not the `[7]` the claim predicts — `session.rollback()` discards the whole
active transaction, not just the failing row's work. -/
theorem C2_counterexample_rollback_discards_earlier_rows :
    (process_row (process_row (⟨[], []⟩ : Sess Nat) (RowOutcome.ok [7])).1
        (RowOutcome.fail [])).1.staged = []
    ∧ ([] : List Nat) ≠ [7] := by
  exact ⟨by decide, by decide⟩

/-- C2 (amended): when a row's processing raises, `session.rollback()`
discards ALL staged work of the active transaction — the failing row's
partial work and the staged chunks/provenance rows of every earlier row
since the last commit alike; committed rows are untouched, the failing row
contributes exactly 0 chunks, and processing continues with the next row
(all remaining rows are still iterated). -/
theorem C2_row_failure_rolls_back_whole_transaction {α : Type} :
    ∀ (s : Sess α) (stagedSoFar : List α),
      process_row s (RowOutcome.fail stagedSoFar)
        = ({ committed := s.committed, staged := [] }, 0)
      ∧ ∀ (rest : List (RowOutcome α)) (ci : Nat),
          (runRows (RowOutcome.fail stagedSoFar :: rest) ci).processed
            = rest.length + 1 := by
  intro s stagedSoFar
  constructor
  · rfl
  · intro rest ci
    unfold runRows
    rw [ingestLoop_processed]
    simp [Nat.add_comm]

/-- C3: over any 123 input rows with `commit_interval = 50`, exactly 3
`session.commit()` calls occur, after the 50th, the 100th, and (final
commit once the row sequence is exhausted) the 123rd processed row. -/
theorem C3_commit_cadence_123_rows_interval_50 :
    ∀ (rows : List (RowOutcome Nat)), rows.length = 123 →
      (runRows rows 50).commits = [50, 100, 123] := by
  intro rows h
  unfold runRows
  rw [ingestLoop_commits, h]
  decide

/-- C3 witness: the commit trace on a concrete 123-row input. -/
theorem C3_commit_cadence_witness :
    (runRows (List.replicate 123 (RowOutcome.ok ([] : List Nat))) 50).commits
      = [50, 100, 123] :=
  C3_commit_cadence_123_rows_interval_50 _ (by simp)

theorem keyCount_eq_zero_of_lookup_none {β : Type} (key : β → String)
    (t : KTable β) (k : String) (h : lookupKey key t k = none) :
    keyCount key t k = 0 := by
  unfold lookupKey at h
  have hfn := Option.map_eq_none'.mp h
  unfold keyCount
  rw [List.length_eq_zero, List.filter_eq_nil_iff]
  exact List.find?_eq_none.mp hfn

theorem one_le_keyCount_of_lookup_some {β : Type} (key : β → String)
    (t : KTable β) (k : String) (i : Nat) (h : lookupKey key t k = some i) :
    1 ≤ keyCount key t k := by
  unfold lookupKey at h
  obtain ⟨r, hr, -⟩ := Option.map_eq_some'.mp h
  have hp : (fun r => key r.2 == k) r = true :=
    @List.find?_some _ (fun r => key r.2 == k) r t.rows hr
  have hm : r ∈ t.rows.filter (fun r => key r.2 == k) :=
    List.mem_filter.mpr ⟨List.mem_of_find?_eq_some hr, hp⟩
  exact List.length_pos.mpr (List.ne_nil_of_mem hm)

/-- A lone (no concurrent writer) call of the lookup / insert-or-recover
body is idempotent: provided the unique constraint held beforehand (at
most one row for the key), a second identical call returns the same id and
leaves the table unchanged, and exactly one row for the key exists
afterwards. -/
theorem resolveUnique_seq {β : Type} (key : β → String) (mkRow : String → β)
    (hmk : ∀ s, key (mkRow s) = s) (t : KTable β) (k : String)
    (h : keyCount key t k ≤ 1) :
    resolveUnique key mkRow id (resolveUnique key mkRow id t k).2 k
        = resolveUnique key mkRow id t k
    ∧ keyCount key (resolveUnique key mkRow id t k).2 k = 1 := by
  cases hl : lookupKey key t k with
  | some i =>
    have h1 : resolveUnique key mkRow id t k = (i, t) := by
      simp only [resolveUnique, hl]
    have hc := one_le_keyCount_of_lookup_some key t k i hl
    refine ⟨?_, ?_⟩
    · rw [h1]
      simp only [resolveUnique, hl]
    · rw [h1]
      show keyCount key t k = 1
      omega
  | none =>
    have hc0 : keyCount key t k = 0 := keyCount_eq_zero_of_lookup_none key t k hl
    have hkey : (key (mkRow k) == k) = true := by
      rw [hmk]
      exact beq_self_eq_true k
    have h1 : resolveUnique key mkRow id t k
        = (t.nextId, ⟨t.rows ++ [(t.nextId, mkRow k)], t.nextId + 1⟩) := by
      simp only [resolveUnique, hl, id_eq]
    have hfn : t.rows.find? (fun r => key r.2 == k) = none :=
      Option.map_eq_none'.mp hl
    have hl2 : lookupKey key
        (⟨t.rows ++ [(t.nextId, mkRow k)], t.nextId + 1⟩ : KTable β) k
        = some t.nextId := by
      unfold lookupKey
      rw [List.find?_append, hfn]
      simp [hkey]
    refine ⟨?_, ?_⟩
    · rw [h1]
      simp only [resolveUnique, hl2]
    · rw [h1]
      unfold keyCount at hc0 ⊢
      rw [List.filter_append]
      simp [hkey, hc0]

/-- The conflict-recovery path of the lookup / insert-or-recover body: a
lookup miss followed by a flush that hits the unique constraint (because a
concurrent writer committed the key meanwhile) is recovered by re-running
the lookup; the conflicting row's id is returned and the table is left
exactly as the concurrent writer left it (no duplicate row). -/
theorem resolveUnique_race {β : Type} (key : β → String) (mkRow : String → β)
    (interleave : KTable β → KTable β) (t : KTable β) (k : String) (j : Nat)
    (h1 : lookupKey key t k = none)
    (h2 : lookupKey key (interleave t) k = some j) :
    resolveUnique key mkRow interleave t k = (j, interleave t) := by
  simp only [resolveUnique, h1, h2]

/-- C5: resolving a copyright holder (or a source) twice with the same
unique key returns the same id both times and leaves exactly one row for
that key; a lookup miss followed by an insert that hits the uniqueness
constraint (an interleaved conflicting insert) is recovered by a
re-lookup, returning the winner's id without adding a duplicate row. -/
theorem C5_provenance_idempotent_and_race_safe :
    (∀ (t : KTable String) (name : String),
        keyCount (fun n => n) t name ≤ 1 →
        insert_copyright_holder id (insert_copyright_holder id t name).2 name
            = insert_copyright_holder id t name
        ∧ keyCount (fun n => n) (insert_copyright_holder id t name).2 name = 1)
    ∧ (∀ (interleave : KTable String → KTable String) (t : KTable String)
          (name : String) (j : Nat),
        lookupKey (fun n => n) t name = none →
        lookupKey (fun n => n) (interleave t) name = some j →
        insert_copyright_holder interleave t name = (j, interleave t))
    ∧ (∀ (hid : Nat) (t : KTable (Nat × String)) (url : String),
        keyCount (fun r => r.2) t url ≤ 1 →
        insert_source id hid (insert_source id hid t url).2 url
            = insert_source id hid t url
        ∧ keyCount (fun r => r.2) (insert_source id hid t url).2 url = 1)
    ∧ (∀ (interleave : KTable (Nat × String) → KTable (Nat × String))
          (hid : Nat) (t : KTable (Nat × String)) (url : String) (j : Nat),
        lookupKey (fun r => r.2) t url = none →
        lookupKey (fun r => r.2) (interleave t) url = some j →
        insert_source interleave hid t url = (j, interleave t)) :=
  ⟨fun t name h => resolveUnique_seq _ _ (fun _ => rfl) t name h,
   fun itl t name j h1 h2 => resolveUnique_race _ _ itl t name j h1 h2,
   fun hid t url h => resolveUnique_seq _ _ (fun _ => rfl) t url h,
   fun itl hid t url j h1 h2 => resolveUnique_race _ _ itl t url j h1 h2⟩

/-- C5 witness: concrete instances — holder `"Acme"` resolved twice on an
empty table; holder `"Acme"` racing a conflicting insert that committed id
99; source `"u1"` resolved twice; source `"u1"` racing a conflicting
insert that committed id 7. -/
theorem C5_provenance_witness :
    (insert_copyright_holder id
        (insert_copyright_holder id ⟨[], 0⟩ "Acme").2 "Acme"
        = insert_copyright_holder id (⟨[], 0⟩ : KTable String) "Acme"
      ∧ keyCount (fun n => n)
          (insert_copyright_holder id (⟨[], 0⟩ : KTable String) "Acme").2
          "Acme" = 1)
    ∧ insert_copyright_holder acmeInterleave (⟨[], 0⟩ : KTable String) "Acme"
        = (99, acmeInterleave ⟨[], 0⟩)
    ∧ (insert_source id 3 (insert_source id 3 ⟨[], 0⟩ "u1").2 "u1"
        = insert_source id 3 (⟨[], 0⟩ : KTable (Nat × String)) "u1"
      ∧ keyCount (fun r => r.2)
          (insert_source id 3 (⟨[], 0⟩ : KTable (Nat × String)) "u1").2
          "u1" = 1)
    ∧ insert_source srcInterleave 3 (⟨[], 0⟩ : KTable (Nat × String)) "u1"
        = (7, srcInterleave ⟨[], 0⟩) :=
  ⟨C5_provenance_idempotent_and_race_safe.1 _ _ (by decide),
   C5_provenance_idempotent_and_race_safe.2.1 _ _ _ 99 (by decide) (by decide),
   C5_provenance_idempotent_and_race_safe.2.2.1 3 _ _ (by decide),
   C5_provenance_idempotent_and_race_safe.2.2.2 _ 3 _ _ 7 (by decide) (by decide)⟩

/-- C6 (counterexample): against a persistently rate-limited provider the
batched path makes 25 provider attempts, not the 5 the claim states: the
public batch method and the internal batch method each carry their own
5-attempt `@retry` decorator, and the inner loop's final `RetryError` is
itself an `Exception` that the outer decorator retries. -/
theorem C6_counterexample_batch_path_25_attempts :
    create_embeddings_batch_attempts = 25 ∧ (25 : Nat) ≠ 5 :=
  ⟨by decide, by decide⟩

/-- C6 (amended): a persistently rate-limited provider causes exactly 5
provider attempts on the single-embedding path; on the batched path the
nested retry decorators multiply to 25 provider attempts before the error
surfaces; within each retry loop the backoff delays are `[4, 4, 8, 16]` —
starting at 4 time-units, non-decreasing, and capped at 60. -/
theorem C6_retry_attempts_and_backoff :
    create_embedding_attempts = 5
    ∧ create_embeddings_batch_attempts = 25
    ∧ backoff_delays = [4, 4, 8, 16]
    ∧ List.Chain' (· ≤ ·) backoff_delays
    ∧ backoff_delays.all (fun d => decide (4 ≤ d) && decide (d ≤ 60)) = true :=
  ⟨by decide, by decide, by decide,
   by
     have h : backoff_delays = [4, 4, 8, 16] := by decide
     rw [h]
     simp [List.chain'_cons],
   by decide⟩

theorem map_zip_fst_take {A B C : Type} (f : A → C) :
    ∀ (a : List A) (b : List B),
      (a.zip b).map (fun p => f p.1) = (a.map f).take b.length := by
  intro a
  induction a with
  | nil => intro b; simp
  | cons x xs ih =>
    intro b
    cases b with
    | nil => simp
    | cons y ys => simp [ih]

theorem splitBatches_flatten {α : Type} (maxB : Nat) (texts : List α) :
    (splitBatches maxB texts).flatten = texts := by
  have H : ∀ (n : Nat) (ts : List α), ts.length ≤ n →
      (splitBatches maxB ts).flatten = ts := by
    intro n
    induction n with
    | zero =>
      intro ts hle
      have : ts = [] := List.eq_nil_of_length_eq_zero (Nat.le_zero.mp hle)
      subst this
      rw [splitBatches]
      simp
    | succ n ih =>
      intro ts hle
      rw [splitBatches]
      split
      · simp
      · rename_i hcond
        simp only [not_or] at hcond
        rw [List.flatten_cons]
        rw [ih (ts.drop maxB) (by simp [List.length_drop]; omega)]
        exact List.take_append_drop maxB ts
  exact H texts.length texts le_rfl

theorem splitBatches_sizes {α : Type} (maxB : Nat) (texts : List α)
    (hmb : 0 < maxB) :
    (splitBatches maxB texts).all (fun b => decide (b.length ≤ maxB)) = true := by
  have H : ∀ (n : Nat) (ts : List α), ts.length ≤ n →
      (splitBatches maxB ts).all (fun b => decide (b.length ≤ maxB)) = true := by
    intro n
    induction n with
    | zero =>
      intro ts hle
      have : ts = [] := List.eq_nil_of_length_eq_zero (Nat.le_zero.mp hle)
      subst this
      rw [splitBatches]
      simp
    | succ n ih =>
      intro ts hle
      rw [splitBatches]
      split
      · rename_i hcond
        rcases hcond with hc | hc
        · simp [hc]
        · omega
      · rename_i hcond
        simp only [not_or] at hcond
        simp only [List.all_cons, Bool.and_eq_true, decide_eq_true_eq]
        refine ⟨by simp [List.length_take], ?_⟩
        exact ih (ts.drop maxB) (by simp [List.length_drop]; omega)
  exact H texts.length texts le_rfl

/-- C7: batched embedding is order-preserving — with the provider
modelled as returning one vector per input text in input order, the
result of `create_embeddings_batch` equals `texts.map f` (vector `i`
corresponds to text `i`), the sub-batches are consecutive slices
concatenating back to the original list, and every sub-batch has at most
`max_batch_size = 100` texts. -/
theorem C7_embed_batch_order_preserving {β : Type} :
    ∀ (f : String → β) (texts : List String),
      create_embeddings_batch (some (some ())) f 100 texts
          = Except.ok (texts.map f)
      ∧ (splitBatches 100 texts).flatten = texts
      ∧ (splitBatches 100 texts).all (fun b => decide (b.length ≤ 100)) = true := by
  intro f texts
  refine ⟨?_, splitBatches_flatten 100 texts,
    splitBatches_sizes 100 texts (by omega)⟩
  have hcb : create_embeddings_batch (some (some ())) f 100 texts
      = if texts.length > 100 then
          Except.ok (((splitBatches 100 texts).map
            (_create_embeddings_batch_internal f)).flatten)
        else Except.ok (_create_embeddings_batch_internal f texts) := rfl
  rw [hcb]
  split
  · congr 1
    have hmap : (splitBatches 100 texts).map (_create_embeddings_batch_internal f)
        = (splitBatches 100 texts).map (List.map f) := rfl
    rw [hmap, ← List.map_flatten, splitBatches_flatten]
  · rfl

/-- C4: for every row whose answer the chunker splits into `k` segments,
the built `chunks_data` assigns `chunk_index` values exactly
`0, 1, ..., k` in order (0 to the question chunk only, the answer chunks
contiguously 1..k), the head is the question chunk, and every answer
chunk's metadata records `total_answer_chunks = k` and
`is_question = false`. -/
theorem C4_chunk_indexing_invariant :
    ∀ (chunker : String → List String) (chunk_strategy question answer : String),
      (buildChunksData chunk_strategy chunker question answer).map
          (fun c => c.metadata.chunk_info.chunk_index)
        = List.range ((chunker answer).length + 1)
      ∧ (buildChunksData chunk_strategy chunker question answer).head?
        = some ⟨question, question_metadata question answer⟩
      ∧ (buildChunksData chunk_strategy chunker question answer).tail.map
          (fun c => c.metadata.chunk_info.total_answer_chunks)
        = List.replicate (chunker answer).length (some (chunker answer).length)
      ∧ (buildChunksData chunk_strategy chunker question answer).tail.map
          (fun c => c.metadata.chunk_info.is_question)
        = List.replicate (chunker answer).length false := by
  intro chunker strat q a
  refine ⟨?_, rfl, ?_, ?_⟩
  · simp only [buildChunksData, List.map_cons, List.map_map]
    rw [List.range_succ_eq_map]
    congr 1
    rw [← List.enum_map_fst (chunker a), List.map_map]
    rfl
  · simp only [buildChunksData, List.tail_cons, List.map_map]
    show List.map (fun _ => some (chunker a).length) (chunker a).enum
        = List.replicate (chunker a).length (some (chunker a).length)
    rw [List.map_const', List.enum_length]
  · simp only [buildChunksData, List.tail_cons, List.map_map]
    show List.map (fun _ => false) (chunker a).enum
        = List.replicate (chunker a).length false
    rw [List.map_const', List.enum_length]

/-- C8 (code_bug): calling the single or batched embedding operation
before `initialize` succeeded fails with `AttributeError` (reading the
never-assigned `self.client` attribute), not with the Uninitialized
`RuntimeError("OpenAI client not initialized")` — the guard
`if not self.client: raise RuntimeError(...)` is dead code because the
attribute read itself raises first; both failure paths of `initialize`
(missing API key, constructor failure) leave the attribute unassigned. -/
theorem C8_uninitialized_call_raises_attribute_error :
    (∀ (provider : String → List Int) (text : String),
        create_embedding none provider text
          = Except.error EmbErr.attributeError)
    ∧ (∀ (f : String → List Int) (max_batch_size : Nat) (texts : List String),
        create_embeddings_batch none f max_batch_size texts
          = Except.error EmbErr.attributeError)
    ∧ EmbErr.attributeError ≠ EmbErr.notInitialized
    ∧ (∀ ctor_ok : Bool, initManager false ctor_ok none = (none, false))
    ∧ initManager true false none = (none, false) :=
  ⟨fun _ _ => rfl, fun _ _ _ => rfl, by decide, fun _ => rfl, rfl⟩

/-- C9 (code_bug): when the embedding client is unavailable (its
`initialize` never succeeded, so the `client` attribute was never
assigned), `insert_dataframe` raises `AttributeError` out of the
`is_available` check before processing any row, instead of returning the
zero summary `{processed_rows: 0, total_chunks: 0}` — that `return` in the
`else` branch is dead code, reachable only from the unreachable state in
which the attribute exists but is falsy. -/
theorem C9_unavailable_run_raises_instead_of_zero_summary :
    ∀ (rows : List (RowOutcome Nat)) (limit : Option Nat) (ci : Nat),
      insert_dataframe (none : ClientState) rows limit ci
          = Except.error EmbErr.attributeError
      ∧ insert_dataframe (none : ClientState) rows limit ci ≠ Except.ok (0, 0)
      ∧ insert_dataframe (some none : ClientState) rows limit ci
          = Except.ok (0, 0) := by
  intro rows limit ci
  refine ⟨rfl, ?_, rfl⟩
  intro hcontra
  exact Except.noConfusion hcontra

/-- C10: `insert_chunks_with_embeddings` pairs texts with embeddings via
`zip` with no length check: the number of staged chunk records equals the
minimum of the two lengths, and the staged contents are exactly the first
`embeddings.length` chunk texts — when the embedding batch returns fewer
vectors than there are texts, the excess texts are silently dropped and
the function (whose type has no failure path) raises no error. -/
theorem C10_excess_texts_silently_dropped {V : Type} :
    ∀ (source_id : Nat) (chunks_data : List ChunkData) (embeddings : List V),
      (insert_chunks_with_embeddings source_id chunks_data embeddings).length
          = min chunks_data.length embeddings.length
      ∧ (insert_chunks_with_embeddings source_id chunks_data embeddings).map
            (fun c => c.content)
          = (chunks_data.map (fun c => c.text)).take embeddings.length := by
  intro sid cd em
  unfold insert_chunks_with_embeddings
  split
  · rename_i hcd
    rw [List.isEmpty_iff] at hcd
    subst hcd
    simp
  · refine ⟨by simp [List.length_zip], ?_⟩
    rw [List.map_map]
    exact map_zip_fst_take (fun c => c.text) cd em

end PgVectorTest
